import Mathlib

/-!
Shallow embedding of the kona-news article-generation layer:
scripts/utils.py (APIKeyManager, RateLimiter, clean_text, save_generated_article)
and scripts/generate_articles.py (ArticleGenerator).

Machine time is modelled by rationals (Python time.time floats), the external
json library by an injectable parse oracle, and the provider HTTP calls by an
injectable outcome sequence; everything else is translated from the source.
-/

set_option linter.unusedVariables false

/-! ## Rate limiter (scripts/utils.py lines 59-79) -/

/-- Embedding of utils.py line 70: the timestamp list retained by the list
comprehension dropping every call at least 60 seconds old at time now. -/
def pruneCalls (calls : List ℚ) (now : ℚ) : List ℚ :=
  calls.filter (fun t => decide (now - t < 60))

/-- Embedding of utils.py lines 72-77: the duration RateLimiter.wait_if_needed
sleeps when entered at time now with the given state (0 when no sleep happens).
The head of the pruned list is calls[0] of the source. -/
def sleepTime (limit : ℕ) (calls : List ℚ) (now : ℚ) : ℚ :=
  let kept := pruneCalls calls now
  if limit ≤ kept.length then
    let s := 60 - (now - kept.headD 0) + 1
    if 0 < s then s else 0
  else 0

/-- Embedding of RateLimiter.wait_if_needed (utils.py lines 66-79): the blocked
duration together with the updated state (pruned list with now appended). -/
def wait_if_needed (limit : ℕ) (calls : List ℚ) (now : ℚ) : ℚ × List ℚ :=
  (sleepTime limit calls now, pruneCalls calls now ++ [now])

/-- Sleeps observed when wait_if_needed is invoked once per entry of the time
schedule, threading the limiter state. -/
def runSleeps (limit : ℕ) : List ℚ → List ℚ → List ℚ
  | _, [] => []
  | calls, t :: ts =>
    sleepTime limit calls t :: runSleeps limit (pruneCalls calls t ++ [t]) ts

/-- Limiter state after running a schedule of calls. -/
def runState : List ℚ → List ℚ → List ℚ
  | calls, [] => calls
  | calls, t :: ts => runState (pruneCalls calls t ++ [t]) ts

/-- States of the limiter at each admission point: after pruning, immediately
before the new timestamp is appended (utils.py between lines 70 and 79). -/
def preStates : List ℚ → List ℚ → List (List ℚ)
  | _, [] => []
  | calls, t :: ts => pruneCalls calls t :: preStates (pruneCalls calls t ++ [t]) ts

/-- A schedule of wall-clock call times is realisable for the injectable clock
when each call happens no earlier than the previous call plus the time that
call spent sleeping (time.sleep advances real time by the slept amount). -/
def validTimes (limit : ℕ) : List ℚ → ℚ → List ℚ → Bool
  | _, _, [] => true
  | calls, lo, t :: ts =>
    decide (lo ≤ t) &&
      validTimes limit (pruneCalls calls t ++ [t]) (t + sleepTime limit calls t) ts

/-- Number of recorded timestamps lying in the closed 60-second window
starting at a. -/
def windowCount (calls : List ℚ) (a : ℚ) : ℕ :=
  (calls.filter (fun t => decide (a ≤ t) && decide (t ≤ a + 60))).length

/-! ## API key manager (scripts/utils.py lines 37-56) -/

/-- Embedding of utils.py APIKeyManager: the two credentials as read from the
environment (none when the variable is unset) and the already-lowercased
active-model identifier (AI_MODEL, default "claude"). -/
structure APIKeyManager where
  claude_key : Option String
  gpt4_key : Option String
  active_model : String

/-- Embedding of APIKeyManager.get_active_key (utils.py lines 46-52). -/
def get_active_key (m : APIKeyManager) : Option String :=
  if m.active_model = "claude" then m.claude_key
  else if m.active_model = "gpt4" ∨ m.active_model = "gpt-4.1-nano" then m.gpt4_key
  else none

/-- Embedding of APIKeyManager.has_valid_key (utils.py lines 54-56): the Python
test is get_active_key() is not None. -/
def has_valid_key (m : APIKeyManager) : Bool :=
  (get_active_key m).isSome

/-! ## Filename sanitization (scripts/utils.py line 143) -/

/-- Model of the Python builtin str.isalnum restricted to the character classes
exercised in this development: ASCII digits and letters plus the Hangul
syllable block U+AC00 to U+D7A3 (Python's Unicode isalnum accepts all of
these; the Hangul range witnesses that isalnum is not ASCII-only). -/
def py_isalnum (c : Char) : Bool :=
  (decide ('0' ≤ c) && decide (c ≤ '9')) || (decide ('A' ≤ c) && decide (c ≤ 'Z')) ||
    (decide ('a' ≤ c) && decide (c ≤ 'z')) ||
    (decide (0xAC00 ≤ c.toNat) && decide (c.toNat ≤ 0xD7A3))

/-- Embedding of the generator condition of utils.py line 143:
c.isalnum() or c in (' ', '-', '_'). -/
def keep_filename_char (c : Char) : Bool :=
  py_isalnum c || decide (c = ' ') || decide (c = '-') || decide (c = '_')

/-- Embedding of utils.py line 143: keep only the allowed characters of the
title, then truncate to the first 50 characters. -/
def sanitize_title (t : String) : String :=
  ((t.toList.filter keep_filename_char).take 50).asString

/-- Membership in the literal character class [A-Za-z0-9 _-] named by the
spec sentence on filename sanitization. -/
def ascii_filename_char (c : Char) : Bool :=
  (decide ('0' ≤ c) && decide (c ≤ '9')) || (decide ('A' ≤ c) && decide (c ≤ 'Z')) ||
    (decide ('a' ≤ c) && decide (c ≤ 'z')) ||
    decide (c = ' ') || decide (c = '-') || decide (c = '_')

/-- A schedule of call times is realisable when every call happens no earlier
than the previous call plus the time that call slept (the first call is
unconstrained; the limiter starts empty). -/
def validSchedule (limit : ℕ) (ts : List ℚ) : Bool :=
  match ts with
  | [] => true
  | t :: _ => validTimes limit [] t ts

/-- Invariant carried across calls: all recorded timestamps precede the next
admissible call time, the record is chronologically ordered, and pruning at
any admissible time leaves at most limit timestamps. -/
def LimiterInv (limit : ℕ) (calls : List ℚ) (lo : ℚ) : Prop :=
  (∀ u ∈ calls, u ≤ lo) ∧ calls.Pairwise (· ≤ ·) ∧
    ∀ t : ℚ, lo ≤ t → (pruneCalls calls t).length ≤ limit

/-! ## Text cleaning (scripts/utils.py lines 82-94) -/

/-- Model of the Python whitespace class used by str.split and str.strip,
restricted to the ASCII whitespace characters (space, tab, newline, carriage
return, vertical tab, form feed). -/
def py_isspace (c : Char) : Bool :=
  decide (c = ' ') || decide (c = '\t') || decide (c = '\n') || decide (c = '\r') ||
    decide (c.toNat = 11) || decide (c.toNat = 12)

/-- Embedding of Python text.split() (utils.py line 88): maximal runs of
non-whitespace characters, with empty pieces dropped. -/
def splitWords : List Char → List (List Char)
  | [] => []
  | c :: rest =>
    if py_isspace c then splitWords rest
    else (c :: rest.takeWhile (fun d => !py_isspace d)) ::
      splitWords (rest.dropWhile (fun d => !py_isspace d))
termination_by cs => cs.length
decreasing_by
  · simp
  · have hsuf : rest.dropWhile (fun d => !py_isspace d) <:+ rest :=
      List.dropWhile_suffix _
    have h := hsuf.sublist.length_le
    simp
    omega

/-- Embedding of ' '.join (utils.py line 88): words joined by single spaces. -/
def joinSpace : List (List Char) → List Char
  | [] => []
  | [w] => w
  | w :: ws => w ++ ' ' :: joinSpace ws

/-- Embedding of re.sub applied to the pattern <[^>]+> (utils.py line 92):
scan left to right; at each '<', if at least one non-'>' character is
followed by a '>', remove through that first '>' and resume after it,
otherwise keep the character. -/
def removeTags : List Char → List Char
  | [] => []
  | c :: rest =>
    if c = '<' ∧ 1 ≤ (rest.takeWhile (fun d => !decide (d = '>'))).length ∧
        (rest.takeWhile (fun d => !decide (d = '>'))).length < rest.length then
      removeTags (rest.drop ((rest.takeWhile (fun d => !decide (d = '>'))).length + 1))
    else c :: removeTags rest
termination_by cs => cs.length
decreasing_by
  · simp [List.length_drop]
    omega
  · simp

/-- Embedding of Python str.strip() (utils.py line 94): remove leading and
trailing whitespace. -/
def py_strip (cs : List Char) : List Char :=
  ((cs.dropWhile py_isspace).reverse.dropWhile py_isspace).reverse

/-- Embedding of utils.py clean_text (lines 82-94): collapse whitespace runs
to single spaces, then delete substrings matching <[^>]+>, then strip. -/
def clean_text (s : String) : String :=
  if s = "" then ""
  else (py_strip (removeTags (joinSpace (splitWords s.toList)))).asString

/-- The character list contains a substring matching the regular expression
<[^>]+> of utils.py line 92. -/
def HasTag (cs : List Char) : Prop :=
  ∃ (a mid b : List Char), cs = a ++ '<' :: (mid ++ '>' :: b) ∧ mid ≠ [] ∧ '>' ∉ mid

/-- No two consecutive characters of the list are both whitespace. -/
def NoDoubleWS (cs : List Char) : Prop :=
  List.Chain' (fun a b => ¬(py_isspace a = true ∧ py_isspace b = true)) cs

/-! ## News selector (scripts/generate_articles.py lines 61-79) -/

/-- Embedding of the flattening loop of select_top_stories (generate_articles.py
lines 63-71): iterate sources, then categories, then articles, annotating each
article with its source and category. Python dict iteration order (insertion
order) is modelled by association-list order, and the dict mutation that adds
the source_name and category keys is modelled by tupling them with the
article. -/
def flatten_news {α : Type} (news : List (String × List (String × List α))) :
    List (String × String × α) :=
  news.flatMap fun sc => sc.2.flatMap fun ca => ca.2.map fun a => (sc.1, ca.1, a)

/-- Embedding of ArticleGenerator.select_top_stories (generate_articles.py
lines 61-79): the first limit articles of the flattened list. -/
def select_top_stories {α : Type} (news : List (String × List (String × List α)))
    (limit : ℕ) : List (String × String × α) :=
  (flatten_news news).take limit

/-! ## JSON values, Python dicts, and the fenced-block extraction
(scripts/generate_articles.py lines 94-153) -/

/-- Model of the JSON values handled by the external json library; Python
dicts are association lists in insertion order. -/
inductive Json where
  | null
  | bool (b : Bool)
  | num (q : ℚ)
  | str (s : String)
  | arr (elems : List Json)
  | obj (fields : List (String × Json))

/-- Python truthiness of a parsed JSON value: None, False, 0, the empty
string, the empty list and the empty dict are falsy. -/
def Json.truthy : Json → Bool
  | .null => false
  | .bool b => b
  | .num q => decide (¬ q = 0)
  | .str s => decide (¬ s = "")
  | .arr xs => !xs.isEmpty
  | .obj fs => !fs.isEmpty

/-- Python dict assignment d[k] = v on an association list: overwrite the
binding in place when the key is present, else append it. -/
def dictSet (fs : List (String × Json)) (k : String) (v : Json) :
    List (String × Json) :=
  if fs.any (fun p => decide (p.1 = k)) then
    fs.map (fun p => if p.1 = k then (k, v) else p)
  else fs ++ [(k, v)]

/-- Python dict lookup d.get(k) on an association list. -/
def dictGet (fs : List (String × Json)) (k : String) : Option Json :=
  (fs.find? (fun p => decide (p.1 = k))).map (fun p => p.2)

/-- Python str.split with a nonempty separator c0 :: sep, written with
explicit fuel (one unit per scanned character, so fuel = input length always
suffices): scan left to right, cutting at each non-overlapping occurrence of
the separator. -/
def py_split_on_fuel (c0 : Char) (sep : List Char) :
    ℕ → List Char → List Char → List (List Char)
  | _ + 1, [], acc => [acc.reverse]
  | n + 1, c :: rest, acc =>
    if (c0 :: sep).isPrefixOf (c :: rest) then
      acc.reverse :: py_split_on_fuel c0 sep n ((c :: rest).drop (sep.length + 1)) []
    else py_split_on_fuel c0 sep n rest (c :: acc)
  | 0, cs, acc => [acc.reverse ++ cs]

/-- Python content.split(c0 :: sep) for a nonempty separator. -/
def py_split_on (c0 : Char) (sep : List Char) (cs : List Char) : List (List Char) :=
  py_split_on_fuel c0 sep cs.length cs []

/-- Embedding of the fenced-block extraction shared by generate_with_claude
and generate_with_gpt4 (generate_articles.py lines 115-116 and 146-147):
when the response contains a json fence marker, split on it, take the piece
after the first marker, cut that piece at the next fence, and strip;
otherwise return the text unchanged. Python's substring test s in content is
content.split(s) having at least two pieces. -/
def extract_json_content (content : String) : String :=
  let parts := py_split_on '`' "``json".toList content.toList
  if 2 ≤ parts.length then
    (py_strip ((py_split_on '`' "``".toList (parts.getD 1 [])).getD 0 [])).asString
  else content

/-- Embedding of ArticleGenerator.generate_with_claude (generate_articles.py
lines 94-122). The anthropic client is modelled by a presence flag, the
messages.create call by its injected outcome (exception or response text) and
json.loads by an injectable parse oracle returning none when it raises; the
try/except wrapper turns every failure into none, so the embedding is a
total function into Option. The prompt and system prompt are forwarded to
the provider boundary and do not influence the modelled outcome. -/
def generate_with_claude (client_present : Bool) (call : Except Unit String)
    (parse : String → Option Json) (prompt system_prompt : String) : Option Json :=
  if client_present then
    match call with
    | .error _ => none
    | .ok content => parse (extract_json_content content)
  else none

/-- Embedding of ArticleGenerator.generate_with_gpt4 (generate_articles.py
lines 124-153), identical in structure to the claude variant. -/
def generate_with_gpt4 (client_present : Bool) (call : Except Unit String)
    (parse : String → Option Json) (prompt system_prompt : String) : Option Json :=
  if client_present then
    match call with
    | .error _ => none
    | .ok content => parse (extract_json_content content)
  else none

/-! ## Run orchestration (scripts/generate_articles.py lines 155-240,
scripts/utils.py lines 136-149) -/

/-- A news item as produced by the external collector
(scripts/collect_news.py lines 54-62). -/
structure NewsItem where
  title : String
  link : String
  description : String
  published : String
  source : String
deriving DecidableEq

/-- Embedding of ArticleGenerator.prepare_news_summary (generate_articles.py
lines 81-92) on selector-annotated items (source_name, category, item): one
three-line block per item from the cleaned title, cleaned description and raw
source, blocks separated by a blank line. -/
def prepare_news_summary (items : List (String × String × NewsItem)) : String :=
  String.intercalate "\n\n" (items.map (fun it =>
    "제목: " ++ clean_text it.2.2.title ++ "\n설명: " ++ clean_text it.2.2.description ++
      "\n출처: " ++ it.2.2.source))

/-- Modelled from the spec: get_prompt("article_generation", ...) of the
missing prompts.py formats the news summary and the newline-joined non-empty
links into the provider request payload (spec 4.4 Prompt Builder); the exact
template text is unobservable to the claims settled here. -/
def get_prompt_article_generation (news_summary sources : String) : String :=
  "[article_generation]\n" ++ news_summary ++ "\n" ++ sources

/-- Modelled from the spec: SYSTEM_PROMPTS of the missing prompts.py maps the
active model to its system prompt, defaulting to the claude prompt
(generate_articles.py lines 168-171). -/
def system_prompt_for (active_model : String) : String :=
  if active_model = "gpt4" then "[system:gpt4]" else "[system:claude]"

/-- JSON encoding of one selector-annotated news item as the Python dict
carried into source_articles (the original collector keys plus the
source_name and category keys added by the selector). -/
def encode_item (it : String × String × NewsItem) : Json :=
  Json.obj [("title", Json.str it.2.2.title), ("link", Json.str it.2.2.link),
    ("description", Json.str it.2.2.description),
    ("published", Json.str it.2.2.published), ("source", Json.str it.2.2.source),
    ("source_name", Json.str it.1), ("category", Json.str it.2.1)]

/-- Embedding of the metadata attachment of generate_article
(generate_articles.py lines 180-184): executed only on a truthy article;
Python item assignment raises TypeError on a non-dict value, modelled by
Except.error. -/
def attach_metadata (j : Json) (now_iso active_model : String)
    (items : List (String × String × NewsItem)) : Except Unit Json :=
  match j with
  | Json.obj fs =>
    Except.ok (Json.obj (dictSet (dictSet (dictSet fs
      "generated_at" (Json.str now_iso))
      "model_used" (Json.str active_model))
      "source_articles" (Json.arr (items.map encode_item))))
  | _ => Except.error ()

/-- The fixed placeholder validation record of cross_validate_article
(generate_articles.py lines 193-197). -/
def validation_record (now_iso : String) : Json :=
  Json.obj [("accuracy_score", Json.num 85),
    ("verified_facts", Json.arr [Json.str "기본 사실 확인됨"]),
    ("validation_timestamp", Json.str now_iso)]

/-- Embedding of ArticleGenerator.cross_validate_article (generate_articles.py
lines 188-200): attach the placeholder validation record; subscripting a
non-dict raises. -/
def cross_validate_article (j : Json) (now_iso : String) : Except Unit Json :=
  match j with
  | Json.obj fs => Except.ok (Json.obj (dictSet fs "validation" (validation_record now_iso)))
  | _ => Except.error ()

/-- Embedding of save_generated_article (utils.py lines 136-149): the filename
is the sanitized title plus a timestamp under generated_articles; reading
article['title'] of a dict without a string title raises, modelled by
Except.error (a persistence failure propagates to the caller). -/
def save_generated_article (article : Json) (now_file : String) : Except Unit String :=
  match article with
  | Json.obj fs =>
    match dictGet fs "title" with
    | some (Json.str t) =>
      Except.ok ("generated_articles/" ++ sanitize_title t ++ "_" ++ now_file ++ ".json")
    | _ => Except.error ()
  | _ => Except.error ()

/-- The ambient state of one ArticleGenerator.run invocation: the environment
configuration read by APIKeyManager, the two client presence flags set by
_init_ai_clients, the injected provider outcome per selected item, the
json.loads oracle, the dataset returned by load_latest_news_data (none when
missing), and the two datetime.now renderings (isoformat for metadata,
strftime for filenames). -/
structure RunEnv where
  active_model : String
  claude_key : Option String
  gpt4_key : Option String
  claude_client : Bool
  openai_client : Bool
  provider : ℕ → Except Unit String
  parse : String → Option Json
  news : Option (List (String × List (String × List NewsItem)))
  now_iso : String
  now_file : String

/-- The APIKeyManager view of the run environment. -/
def RunEnv.keys (e : RunEnv) : APIKeyManager :=
  ⟨e.claude_key, e.gpt4_key, e.active_model⟩

/-- Embedding of ArticleGenerator.generate_article (generate_articles.py
lines 155-186) on the batch for provider-call slot i: build the prompt,
dispatch on the active model tag (an unmatched tag performs no provider call
and leaves the article as None), and on a truthy result attach the metadata,
which raises exactly when the payload is not a JSON object. -/
def generate_article (env : RunEnv) (i : ℕ)
    (items : List (String × String × NewsItem)) : Except Unit (Option Json) :=
  let sources := String.intercalate "\n"
    ((items.filter (fun it => decide (¬ it.2.2.link = ""))).map (fun it => it.2.2.link))
  let prompt := get_prompt_article_generation (prepare_news_summary items) sources
  let sysp := system_prompt_for env.active_model
  let article : Option Json :=
    if env.active_model = "claude" then
      generate_with_claude env.claude_client (env.provider i) env.parse prompt sysp
    else if env.active_model = "gpt4" then
      generate_with_gpt4 env.openai_client (env.provider i) env.parse prompt sysp
    else none
  match article with
  | none => Except.ok none
  | some j =>
    if j.truthy then
      match attach_metadata j env.now_iso env.active_model items with
      | Except.ok j2 => Except.ok (some j2)
      | Except.error e => Except.error e
    else Except.ok (some j)

/-- Number of provider calls one generate_article performs: one exactly when
the branch for the active model runs with its client initialized. -/
def provider_calls_per_item (env : RunEnv) : ℕ :=
  if env.active_model = "claude" then (if env.claude_client then 1 else 0)
  else if env.active_model = "gpt4" then (if env.openai_client then 1 else 0)
  else 0

/-- Embedding of the per-item loop of ArticleGenerator.run (generate_articles.py
lines 221-238): generate from the single story, skip falsy results, validate
and persist truthy ones, collecting filenames; an uncaught exception from
generation, validation or persistence aborts the loop. The second component
counts provider calls. -/
def run_loop (env : RunEnv) : List (String × String × NewsItem) → ℕ → List String → ℕ →
    Except Unit (List String) × ℕ
  | [], _, files, calls => (Except.ok files, calls)
  | st :: rest, i, files, calls =>
    let calls2 := calls + provider_calls_per_item env
    match generate_article env i [st] with
    | Except.error e => (Except.error e, calls2)
    | Except.ok none => run_loop env rest (i + 1) files calls2
    | Except.ok (some j) =>
      if j.truthy then
        match cross_validate_article j env.now_iso with
        | Except.error e => (Except.error e, calls2)
        | Except.ok j2 =>
          match save_generated_article j2 env.now_file with
          | Except.error e => (Except.error e, calls2)
          | Except.ok fn => run_loop env rest (i + 1) (files ++ [fn]) calls2
      else run_loop env rest (i + 1) files calls2

/-- Embedding of ArticleGenerator.run (generate_articles.py lines 202-240):
fail fast on a missing credential or missing dataset, else select the top
stories and run the per-item loop. -/
def run (env : RunEnv) (max_articles : ℕ) : Except Unit (List String) × ℕ :=
  if has_valid_key env.keys = false then (Except.ok [], 0)
  else
    match env.news with
    | none => (Except.ok [], 0)
    | some nd => run_loop env (select_top_stories nd max_articles) 0 [] 0

/-- The parsed payload (None when the provider call raised or json.loads
raised) that the generation of item slot i works with. -/
def item_outcome (env : RunEnv) (i : ℕ) : Option Json :=
  match env.provider i with
  | Except.error _ => none
  | Except.ok txt => env.parse (extract_json_content txt)

/-- The dict has a string under "title". -/
def title_is_string (fs : List (String × Json)) : Bool :=
  match dictGet fs "title" with
  | some (Json.str _) => true
  | _ => false

/-- Item slot i generates an article that run persists: a truthy (non-empty)
JSON object whose title is a string. -/
def outcome_success (env : RunEnv) (i : ℕ) : Bool :=
  match item_outcome env i with
  | some (Json.obj fs) => (Json.obj fs).truthy && title_is_string fs
  | _ => false

/-- Item slot i does not abort the run: its payload is absent, falsy, or a
persistable object. -/
def outcome_benign (env : RunEnv) (i : ℕ) : Bool :=
  match item_outcome env i with
  | none => true
  | some j => !j.truthy || outcome_success env i

/-- Number of persistable generations among the first n provider-call slots
starting at slot i. -/
def success_count (env : RunEnv) (i n : ℕ) : ℕ :=
  (List.range' i n).countP (fun j => outcome_success env j)

/-- A sample collected news item. -/
def sample_item (n : String) : NewsItem :=
  ⟨"Item " ++ n, "https://news.example/" ++ n, "desc " ++ n, "Mon", "src"⟩

/-- A dataset with one source, one category and three news items. -/
def sample_dataset : List (String × List (String × List NewsItem)) :=
  [("yonhap", [("all_news", [sample_item "1", sample_item "2", sample_item "3"])])]

/-- A claude-configured run over sample_dataset in which the provider call
for slot 0 raises and every later slot returns a well-formed article
object. -/
def sample_env : RunEnv :=
  ⟨"claude", some "k", none, true, false,
    fun n => if n = 0 then Except.error () else Except.ok "\x7b\"title\": \"B\"\x7d",
    fun s => if s = "\x7b\"title\": \"B\"\x7d" then
      some (Json.obj [("title", Json.str "B")]) else none,
    some sample_dataset, "2024-01-01T00:00:00", "20240101_000000"⟩

/-- A claude-configured run whose sole provider response is the empty JSON
object, which json.loads parses successfully. -/
def empty_object_env : RunEnv :=
  ⟨"claude", some "k", none, true, false,
    fun _ => Except.ok "\x7b\x7d",
    fun s => if s = "\x7b\x7d" then some (Json.obj []) else none,
    some [("yonhap", [("all_news", [sample_item "1"])])],
    "2024-01-01T00:00:00", "20240101_000000"⟩

/-- A claude-configured run whose sole provider response is the bare JSON
number 42: truthy, valid JSON, but not an object. -/
def bare_number_env : RunEnv :=
  ⟨"claude", some "k", none, true, false,
    fun _ => Except.ok "42",
    fun s => if s = "42" then some (Json.num 42) else none,
    some [("yonhap", [("all_news", [sample_item "1"])])],
    "2024-01-01T00:00:00", "20240101_000000"⟩

/-! ## Theorems -/

/-- Pruning a burst of identical timestamps at their own time keeps them all. -/
lemma pruneCalls_replicate (k : ℕ) (t0 : ℚ) :
    pruneCalls (List.replicate k t0) t0 = List.replicate k t0 := by
  rw [pruneCalls, List.filter_eq_self]
  intro a ha
  rw [List.eq_of_mem_replicate ha]
  simp only [decide_eq_true_eq]
  linarith

/-- Sleep of a call arriving at time t0 when k calls are already recorded at
t0: zero below the limit, 61 seconds at or above it. -/
lemma sleepTime_replicate (N k : ℕ) (hN : 1 ≤ N) (t0 : ℚ) :
    sleepTime N (List.replicate k t0) t0 = if N ≤ k then 61 else 0 := by
  unfold sleepTime
  dsimp only
  rw [pruneCalls_replicate, List.length_replicate]
  by_cases h : N ≤ k
  · rw [if_pos h, if_pos h]
    have hk : 1 ≤ k := le_trans hN h
    obtain ⟨k', rfl⟩ := Nat.exists_eq_add_of_le hk
    rw [Nat.add_comm 1 k', List.replicate_succ, List.headD_cons]
    rw [if_pos (by linarith)]
    ring
  · rw [if_neg h, if_neg h]

lemma runSleeps_burst_aux (N : ℕ) (hN : 1 ≤ N) (t0 : ℚ) :
    ∀ (m k : ℕ), N = k + m →
      runSleeps N (List.replicate k t0) (List.replicate (m + 1) t0) =
        List.replicate m (0 : ℚ) ++ [61] := by
  intro m
  induction m with
  | zero =>
    intro k hk
    rw [List.replicate_succ, List.replicate_zero, runSleeps, runSleeps]
    rw [sleepTime_replicate N k hN t0, if_pos (by omega)]
    simp
  | succ m ih =>
    intro k hk
    rw [List.replicate_succ, runSleeps]
    rw [sleepTime_replicate N k hN t0, if_neg (by omega)]
    rw [pruneCalls_replicate, ← List.replicate_succ']
    rw [ih (k + 1) (by omega)]
    simp [List.replicate_succ]

lemma runState_replicate (t0 : ℚ) :
    ∀ (m k : ℕ), runState (List.replicate k t0) (List.replicate m t0) =
      List.replicate (k + m) t0 := by
  intro m
  induction m with
  | zero => intro k; simp [runState]
  | succ m ih =>
    intro k
    rw [List.replicate_succ, runState, pruneCalls_replicate, ← List.replicate_succ']
    rw [ih (k + 1)]
    congr 1
    omega

/-- C1: With calls_per_minute = N ≥ 1 and an injectable clock, N calls to
wait_if_needed in immediate succession (all at time t0, starting from an
empty limiter) sleep 0 each, and the (N+1)-th call sleeps exactly
60 - (now - oldest) + 1 seconds, where now = oldest = t0; every call first
prunes the stale timestamps and then records now, so the final state holds
all N+1 timestamps t0. -/
theorem rate_limiter_burst (N : ℕ) (hN : 1 ≤ N) (t0 : ℚ) :
    runSleeps N [] (List.replicate (N + 1) t0) =
        List.replicate N (0 : ℚ) ++ [60 - (t0 - t0) + 1] ∧
      runState [] (List.replicate (N + 1) t0) = List.replicate (N + 1) t0 := by
  constructor
  · have h := runSleeps_burst_aux N hN t0 N 0 (by omega)
    rw [List.replicate_zero] at h
    rw [h]
    congr 2
    ring
  · have h := runState_replicate t0 (N + 1) 0
    rw [List.replicate_zero] at h
    simpa using h

/-- Witness for C1: limit 2, three immediate calls at time 0; the first two
sleep 0 and the third sleeps 61 = 60 - (0 - 0) + 1 seconds. -/
theorem rate_limiter_burst_witness :
    1 ≤ 2 ∧
      (runSleeps 2 [] (List.replicate 3 0) =
          List.replicate 2 (0 : ℚ) ++ [60 - (0 - 0) + 1] ∧
        runState [] (List.replicate 3 0) = List.replicate 3 (0 : ℚ)) :=
  ⟨by decide, rate_limiter_burst 2 (by decide) 0⟩

/-- C7 counterexample: with the active model "claude" and CLAUDE_API_KEY set
to the empty string, the active credential is the empty string yet
has_valid_key returns true (the source tests only `is not None`),
contradicting the claim that it returns false for an empty credential. -/
theorem has_valid_key_empty_string_counterexample :
    get_active_key ⟨some "", none, "claude"⟩ = some "" ∧
      has_valid_key ⟨some "", none, "claude"⟩ = true := by
  constructor
  · rfl
  · rfl

/-- C7 amended: has_valid_key returns true iff a credential is configured
(present) for the active model, regardless of whether that string is empty;
in particular a present-but-empty claude credential yields true. -/
theorem has_valid_key_iff_present (m : APIKeyManager) :
    (has_valid_key m = true ↔ ∃ s, get_active_key m = some s) ∧
      has_valid_key ⟨some "", m.gpt4_key, "claude"⟩ = true := by
  constructor
  · rw [has_valid_key, Option.isSome_iff_exists]
  · rfl

/-- C8 counterexample: save_generated_article sanitizes the Korean title
"한국" to itself, because Python str.isalnum accepts Hangul syllables; the
result contains characters outside [A-Za-z0-9 _-], contradicting the claim
that the sanitized string never contains characters outside that set. -/
theorem sanitize_title_not_ascii_counterexample :
    sanitize_title "한국" = "한국" ∧
      (sanitize_title "한국").toList.all ascii_filename_char = false := by
  constructor
  · decide
  · decide

/-- C8 amended: filename sanitization is idempotent, and every character of
the sanitized result is accepted by the sanitizer's own character class
(Python isalnum — which includes non-ASCII letters such as Hangul — plus
space, hyphen and underscore); the ASCII-only guarantee of the original
claim fails. -/
theorem sanitize_title_idem_and_closed (t : String) :
    sanitize_title (sanitize_title t) = sanitize_title t ∧
      (sanitize_title t).toList.all keep_filename_char = true := by
  have hall : ∀ c ∈ (t.toList.filter keep_filename_char).take 50,
      keep_filename_char c = true := by
    intro c hc
    exact List.of_mem_filter (List.take_subset 50 _ hc)
  constructor
  · unfold sanitize_title
    rw [List.toList_asString]
    rw [List.filter_eq_self.2 hall, List.take_take]
    norm_num
  · unfold sanitize_title
    rw [List.toList_asString]
    exact List.all_eq_true.2 hall

/-- The sleep computed by wait_if_needed is never negative. -/
lemma sleepTime_nonneg (limit : ℕ) (calls : List ℚ) (now : ℚ) :
    0 ≤ sleepTime limit calls now := by
  unfold sleepTime
  dsimp only
  split
  · split
    · linarith
    · exact le_refl 0
  · exact le_refl 0

/-- Every element of the pruned list is an element of the original state. -/
lemma mem_of_mem_pruneCalls {calls : List ℚ} {now u : ℚ}
    (h : u ∈ pruneCalls calls now) : u ∈ calls :=
  List.mem_of_mem_filter h

/-- Every element of the pruned list is younger than 60 seconds at now. -/
lemma lt_of_mem_pruneCalls {calls : List ℚ} {now u : ℚ}
    (h : u ∈ pruneCalls calls now) : now - u < 60 := by
  have := List.of_mem_filter h
  simpa using this

/-- Filtering a list that contains an element violating the predicate strictly
shrinks it. -/
lemma length_filter_lt_of_mem_neg {α : Type} {p : α → Bool} :
    ∀ {l : List α} {x : α}, x ∈ l → p x = false → (l.filter p).length < l.length := by
  intro l
  induction l with
  | nil => intro x hx; cases hx
  | cons a l ih =>
    intro x hx hpx
    rcases List.mem_cons.1 hx with rfl | hmem
    · rw [List.filter_cons, hpx]
      have := List.length_filter_le p l
      simpa using Nat.lt_succ_of_le this
    · rw [List.filter_cons]
      rcases h : p a with _ | _
      · simpa using Nat.lt_succ_of_lt (ih hmem hpx)
      · simpa using Nat.succ_lt_succ (ih hmem hpx)

lemma limiterInv_nil (limit : ℕ) (lo : ℚ) : LimiterInv limit [] lo := by
  refine ⟨?_, ?_, ?_⟩
  · intro u hu
    cases hu
  · exact List.Pairwise.nil
  · intro t _
    simp [pruneCalls]

/-- One wait_if_needed call preserves the limiter invariant, where the next
admissible time is the current time plus the slept duration. -/
lemma limiterInv_step (limit : ℕ) (hlim : 1 ≤ limit) (calls : List ℚ) (lo t : ℚ)
    (hInv : LimiterInv limit calls lo) (ht : lo ≤ t) :
    LimiterInv limit (pruneCalls calls t ++ [t]) (t + sleepTime limit calls t) := by
  obtain ⟨hle, hsort, hbound⟩ := hInv
  have hsleep := sleepTime_nonneg limit calls t
  have hub : ∀ u ∈ pruneCalls calls t, u ≤ t := by
    intro u hu
    exact le_trans (hle u (mem_of_mem_pruneCalls hu)) ht
  refine ⟨?_, ?_, ?_⟩
  · intro u hu
    rcases List.mem_append.1 hu with h | h
    · exact le_trans (hub u h) (by linarith)
    · rcases List.mem_singleton.1 h with rfl
      linarith
  · refine List.pairwise_append.2 ⟨?_, ?_, ?_⟩
    · exact List.Pairwise.sublist (List.filter_sublist calls) hsort
    · exact List.pairwise_singleton _ t
    · intro u hu v hv
      rcases List.mem_singleton.1 hv with rfl
      exact hub u hu
  · intro u hu
    rw [pruneCalls, List.filter_append, List.length_append]
    have hsingle : (List.filter (fun x => decide (u - x < 60)) [t]).length ≤ 1 := by
      have := List.length_filter_le (fun x => decide (u - x < 60)) [t]
      simpa using this
    have hkept := hbound t ht
    by_cases hfull : limit ≤ (pruneCalls calls t).length
    · -- the call slept: the oldest retained timestamp is evicted by u
      have hne : pruneCalls calls t ≠ [] := by
        intro hemp
        rw [hemp] at hfull
        simp at hfull
        omega
      obtain ⟨h0, ktl, hK⟩ := List.exists_cons_of_ne_nil hne
      have hh0mem : h0 ∈ pruneCalls calls t := by rw [hK]; exact List.mem_cons_self _ _
      have hage : t - h0 < 60 := lt_of_mem_pruneCalls hh0mem
      have hsleepval : sleepTime limit calls t = 60 - (t - h0) + 1 := by
        unfold sleepTime
        dsimp only
        rw [if_pos hfull, hK]
        simp only [List.headD_cons]
        rw [if_pos (by linarith)]
      have hu' : t + (60 - (t - h0) + 1) ≤ u := by rw [← hsleepval]; exact hu
      have hnotkeep : (decide (u - h0 < 60) : Bool) = false := by
        simp only [decide_eq_false_iff_not, not_lt]
        linarith
      have hlt : ((pruneCalls calls t).filter (fun x => decide (u - x < 60))).length
          < (pruneCalls calls t).length :=
        length_filter_lt_of_mem_neg hh0mem hnotkeep
      unfold pruneCalls at hlt hkept hfull ⊢
      omega
    · -- no sleep: the state was strictly below the limit before appending
      have hlt : (pruneCalls calls t).length < limit := Nat.lt_of_not_le hfull
      have hfle := List.length_filter_le (fun x => decide (u - x < 60)) (pruneCalls calls t)
      unfold pruneCalls at hfle hlt ⊢
      omega

/-- Along any realisable schedule, every pre-admission state has at most
limit timestamps. -/
lemma preStates_length_le (limit : ℕ) (hlim : 1 ≤ limit) :
    ∀ (ts calls : List ℚ) (lo : ℚ), LimiterInv limit calls lo →
      validTimes limit calls lo ts = true →
      ∀ s ∈ preStates calls ts, s.length ≤ limit := by
  intro ts
  induction ts with
  | nil => intro calls lo _ _ s hs; simp [preStates] at hs
  | cons t ts ih =>
    intro calls lo hInv hv s hs
    rw [validTimes, Bool.and_eq_true, decide_eq_true_eq] at hv
    obtain ⟨hlo, hv'⟩ := hv
    rw [preStates] at hs
    rcases List.mem_cons.1 hs with rfl | hmem
    · exact hInv.2.2 t hlo
    · exact ih (pruneCalls calls t ++ [t]) (t + sleepTime limit calls t)
        (limiterInv_step limit hlim calls lo t hInv hlo) hv' s hmem

/-- C2: For every realisable sequence of calls to wait_if_needed on a limiter
with limit calls_per_minute ≥ 1, at the moment each new call is admitted
(after pruning, immediately before the new timestamp is appended) the state
holds at most calls_per_minute timestamps inside any single 60-second
window. -/
theorem rate_limiter_window_invariant (limit : ℕ) (hlim : 1 ≤ limit)
    (ts : List ℚ) (hv : validSchedule limit ts = true) :
    ∀ s ∈ preStates [] ts, ∀ a : ℚ, windowCount s a ≤ limit := by
  intro s hs a
  have hlen : s.length ≤ limit := by
    cases ts with
    | nil => simp [preStates] at hs
    | cons t ts' =>
      exact preStates_length_le limit hlim (t :: ts') [] t (limiterInv_nil limit t)
        hv s hs
  exact le_trans (List.length_filter_le _ s) hlen

/-- Witness for C2: a limiter with limit 2 over a burst of three immediate
calls; every pre-admission state stays within the window bound. -/
theorem rate_limiter_window_invariant_witness :
    (1 ≤ 2 ∧ validSchedule 2 [0, 0, 0] = true) ∧
      ∀ s ∈ preStates [] [0, 0, 0], ∀ a : ℚ, windowCount s a ≤ 2 :=
  ⟨⟨by decide, by simp [validSchedule, validTimes, sleepTime, pruneCalls]⟩,
    rate_limiter_window_invariant 2 (by decide) [0, 0, 0]
      (by simp [validSchedule, validTimes, sleepTime, pruneCalls])⟩

/-- The tag-removal pass only ever deletes characters. -/
lemma mem_removeTags : ∀ (cs : List Char), ∀ c ∈ removeTags cs, c ∈ cs := by
  intro cs
  induction cs using removeTags.induct with
  | case1 =>
    intro c hc
    simp [removeTags] at hc
  | case2 c rest hcond ih =>
    intro x hx
    rw [removeTags, if_pos hcond] at hx
    exact List.mem_cons_of_mem _ (List.mem_of_mem_drop (ih x hx))
  | case3 c rest hcond ih =>
    intro x hx
    rw [removeTags, if_neg hcond] at hx
    rcases List.mem_cons.1 hx with rfl | h
    · exact List.mem_cons_self _ _
    · exact List.mem_cons_of_mem _ (ih x h)

lemma hasTag_nil_false : ¬ HasTag [] := by
  rintro ⟨a, mid, b, heq, -, -⟩
  cases a <;> simp at heq

/-- Splitting a tag occurrence at the head of the list. -/
lemma hasTag_cons_elim {c : Char} {l : List Char} (h : HasTag (c :: l)) :
    (c = '<' ∧ ∃ mid b, l = mid ++ '>' :: b ∧ mid ≠ [] ∧ '>' ∉ mid) ∨ HasTag l := by
  obtain ⟨a, mid, b, heq, hne, hni⟩ := h
  cases a with
  | nil =>
    left
    rw [List.nil_append, List.cons.injEq] at heq
    exact ⟨heq.1, mid, b, heq.2, hne, hni⟩
  | cons a0 a' =>
    right
    rw [List.cons_append, List.cons.injEq] at heq
    exact ⟨a', mid, b, heq.2, hne, hni⟩

/-- An element failing the predicate strictly shortens takeWhile. -/
lemma takeWhile_length_lt_of_mem {α : Type} {p : α → Bool} :
    ∀ {l : List α} {x : α}, x ∈ l → p x = false → (l.takeWhile p).length < l.length := by
  intro l
  induction l with
  | nil => intro x hx; cases hx
  | cons a l ih =>
    intro x hx hpx
    rw [List.takeWhile_cons]
    rcases List.mem_cons.1 hx with rfl | hmem
    · rw [hpx]
      simp
    · rcases h : p a with _ | _
      · simp
      · simpa using ih hmem hpx

/-- Core C9 fact: the output of the tag-removal scan never contains a
substring matching <[^>]+>. -/
lemma removeTags_no_tag : ∀ (cs : List Char), ¬ HasTag (removeTags cs) := by
  intro cs
  induction cs using removeTags.induct with
  | case1 =>
    rw [removeTags]
    exact hasTag_nil_false
  | case2 c rest hcond ih =>
    rw [removeTags, if_pos hcond]
    exact ih
  | case3 c rest hcond ih =>
    rw [removeTags, if_neg hcond]
    intro h
    rcases hasTag_cons_elim h with ⟨hc, mid, b, hl, hne, hni⟩ | h2
    · subst hc
      push_neg at hcond
      rcases Nat.lt_or_ge (rest.takeWhile (fun d => !decide (d = '>'))).length 1 with hzero | hone
      · -- the character after '<' is '>' (or the input ends): no match possible
        cases rest with
        | nil =>
          rw [removeTags] at hl
          cases mid <;> simp at hl
        | cons r0 rest2 =>
          rw [List.takeWhile_cons] at hzero
          rcases hr0 : (!decide (r0 = '>')) with _ | _
          · have hr0' : r0 = '>' := by simpa using hr0
            subst hr0'
            rw [removeTags, if_neg (by simp)] at hl
            cases mid with
            | nil => exact hne rfl
            | cons m0 mid' =>
              rw [List.cons_append, List.cons.injEq] at hl
              exact hni (hl.1 ▸ List.mem_cons_self m0 mid')
          · rw [hr0] at hzero
            simp at hzero
      · -- no '>' follows at all: the suffix after '<' is '>'-free
        have hlen := hcond rfl hone
        have htake : rest.takeWhile (fun d => !decide (d = '>')) = rest :=
          (List.takeWhile_sublist _).eq_of_length_le hlen
        have hnogt : '>' ∉ rest := by
          intro hin
          have := List.takeWhile_eq_self_iff.1 htake '>' hin
          simp at this
        have : '>' ∈ removeTags rest := by
          rw [hl]
          exact List.mem_append_right mid (List.mem_cons_self _ _)
        exact hnogt (mem_removeTags rest '>' this)
    · exact ih h2

/-- A tag occurrence inside an infix is a tag occurrence in the whole list. -/
lemma hasTag_of_isInfix {l₁ l₂ : List Char} (h : l₁ <:+: l₂) (ht : HasTag l₁) :
    HasTag l₂ := by
  obtain ⟨u, v, rfl⟩ := h
  obtain ⟨a, mid, b, rfl, hne, hni⟩ := ht
  exact ⟨u ++ a, mid, b ++ v, by simp, hne, hni⟩

/-- Stripping returns an infix of its input. -/
lemma py_strip_isInfix (cs : List Char) : py_strip cs <:+: cs := by
  have h1 : cs.dropWhile py_isspace <:+ cs := List.dropWhile_suffix _
  have h2 : ((cs.dropWhile py_isspace).reverse.dropWhile py_isspace) <:+
      (cs.dropWhile py_isspace).reverse := List.dropWhile_suffix _
  have h3 : py_strip cs <+: cs.dropWhile py_isspace := by
    have := List.reverse_prefix.2 h2
    rwa [List.reverse_reverse] at this
  exact h3.isInfix.trans h1.isInfix

/-- Words produced by the splitter are nonempty and whitespace-free. -/
lemma splitWords_sound : ∀ (cs : List Char), ∀ w ∈ splitWords cs,
    w ≠ [] ∧ ∀ c ∈ w, py_isspace c = false := by
  intro cs
  induction cs using splitWords.induct with
  | case1 =>
    intro w hw
    simp [splitWords] at hw
  | case2 c rest hws ih =>
    intro w hw
    rw [splitWords, if_pos hws] at hw
    exact ih w hw
  | case3 c rest hws ih =>
    intro w hw
    rw [splitWords, if_neg hws] at hw
    rcases List.mem_cons.1 hw with rfl | h
    · refine ⟨by simp, ?_⟩
      intro x hx
      rcases List.mem_cons.1 hx with rfl | hx'
      · simpa using hws
      · have := List.mem_takeWhile_imp hx'
        simpa using this
    · exact ih w h

/-- Characters of split words come from the input. -/
lemma splitWords_subset : ∀ (cs : List Char), ∀ w ∈ splitWords cs, ∀ c ∈ w, c ∈ cs := by
  intro cs
  induction cs using splitWords.induct with
  | case1 =>
    intro w hw
    simp [splitWords] at hw
  | case2 c rest hws ih =>
    intro w hw x hx
    rw [splitWords, if_pos hws] at hw
    exact List.mem_cons_of_mem _ (ih w hw x hx)
  | case3 c rest hws ih =>
    intro w hw x hx
    rw [splitWords, if_neg hws] at hw
    rcases List.mem_cons.1 hw with rfl | h
    · rcases List.mem_cons.1 hx with rfl | hx'
      · exact List.mem_cons_self _ _
      · exact List.mem_cons_of_mem _ ((List.takeWhile_sublist _).subset hx')
    · exact List.mem_cons_of_mem _
        ((List.dropWhile_suffix (fun d => !py_isspace d)).subset (ih w h x hx))

/-- Unconditional unfolding of joinSpace on a list with at least two words. -/
lemma joinSpace_cons_of_ne_nil (w : List Char) (ws : List (List Char)) (h : ws ≠ []) :
    joinSpace (w :: ws) = w ++ ' ' :: joinSpace ws := by
  obtain ⟨w2, ws', rfl⟩ := List.exists_cons_of_ne_nil h
  rfl

/-- Characters of the joined list are characters of some word, or the single
separating space. -/
lemma mem_joinSpace : ∀ (ws : List (List Char)) (c : Char), c ∈ joinSpace ws →
    (∃ w ∈ ws, c ∈ w) ∨ c = ' ' := by
  intro ws
  induction ws using joinSpace.induct with
  | case1 =>
    intro c hc
    simp [joinSpace] at hc
  | case2 w =>
    intro c hc
    rw [joinSpace] at hc
    exact Or.inl ⟨w, List.mem_cons_self _ _, hc⟩
  | case3 w ws hne ih =>
    intro c hc
    rw [joinSpace_cons_of_ne_nil w ws (fun h => hne h)] at hc
    rcases List.mem_append.1 hc with h | h
    · exact Or.inl ⟨w, List.mem_cons_self _ _, h⟩
    · rcases List.mem_cons.1 h with rfl | h2
      · exact Or.inr rfl
      · rcases ih c h2 with ⟨w', hw', hc'⟩ | heq
        · exact Or.inl ⟨w', List.mem_cons_of_mem _ hw', hc'⟩
        · exact Or.inr heq

/-- A list of whitespace-free characters has no whitespace run at all. -/
lemma noDoubleWS_of_all_nonws : ∀ (l : List Char),
    (∀ c ∈ l, py_isspace c = false) → NoDoubleWS l := by
  intro l
  induction l with
  | nil => intro _; exact List.chain'_nil
  | cons a l ih =>
    intro h
    rw [NoDoubleWS, List.chain'_cons']
    refine ⟨?_, ih fun c hc => h c (List.mem_cons_of_mem _ hc)⟩
    intro y hy hcontra
    have := h a (List.mem_cons_self _ _)
    rw [hcontra.1] at this
    cases this

/-- The head of the joined list is the head of the first word, hence never a
whitespace character when all words are nonempty and whitespace-free. -/
lemma joinSpace_head_nonws : ∀ (ws : List (List Char)),
    (∀ w ∈ ws, w ≠ [] ∧ ∀ c ∈ w, py_isspace c = false) →
    ∀ y ∈ (joinSpace ws).head?, py_isspace y = false := by
  intro ws hws
  cases ws with
  | nil =>
    intro y hy
    simp [joinSpace] at hy
  | cons w ws' =>
    obtain ⟨hne, hfree⟩ := hws w (List.mem_cons_self _ _)
    obtain ⟨c, t, rfl⟩ := List.exists_cons_of_ne_nil hne
    cases ws' with
    | nil =>
      intro y hy
      rw [joinSpace] at hy
      rw [List.head?_cons, Option.mem_some_iff] at hy
      exact hy ▸ hfree c (List.mem_cons_self _ _)
    | cons w2 ws'' =>
      intro y hy
      rw [joinSpace_cons_of_ne_nil _ _ (by simp), List.cons_append, List.head?_cons,
        Option.mem_some_iff] at hy
      exact hy ▸ hfree c (List.mem_cons_self _ _)

/-- Joining nonempty whitespace-free words with single spaces yields a list
with no two consecutive whitespace characters. -/
lemma joinSpace_noDoubleWS : ∀ (ws : List (List Char)),
    (∀ w ∈ ws, w ≠ [] ∧ ∀ c ∈ w, py_isspace c = false) →
    NoDoubleWS (joinSpace ws) := by
  intro ws
  induction ws using joinSpace.induct with
  | case1 =>
    intro _
    rw [joinSpace]
    exact List.chain'_nil
  | case2 w =>
    intro h
    rw [joinSpace]
    exact noDoubleWS_of_all_nonws w (h w (List.mem_cons_self _ _)).2
  | case3 w ws hne ih =>
    intro h
    rw [joinSpace_cons_of_ne_nil w ws (fun hh => hne hh)]
    obtain ⟨hwne, hfree⟩ := h w (List.mem_cons_self _ _)
    have hrest : ∀ w' ∈ ws, w' ≠ [] ∧ ∀ c ∈ w', py_isspace c = false :=
      fun w' hw' => h w' (List.mem_cons_of_mem _ hw')
    rw [NoDoubleWS, List.chain'_append]
    refine ⟨noDoubleWS_of_all_nonws w hfree, ?_, ?_⟩
    · rw [List.chain'_cons']
      refine ⟨?_, ih hrest⟩
      intro y hy hcontra
      have := joinSpace_head_nonws ws hrest y hy
      rw [hcontra.2] at this
      cases this
    · intro x hx y hy hcontra
      have hxw : x ∈ w := List.mem_of_mem_getLast? hx
      have := hfree x hxw
      rw [hcontra.1] at this
      cases this

/-- When the input contains no opening angle bracket the tag-removal pass is
the identity. -/
lemma removeTags_eq_self : ∀ (cs : List Char), '<' ∉ cs → removeTags cs = cs := by
  intro cs
  induction cs using removeTags.induct with
  | case1 =>
    intro _
    rw [removeTags]
  | case2 c rest hcond ih =>
    intro hni
    exact absurd (hcond.1 ▸ List.mem_cons_self c rest) hni
  | case3 c rest hcond ih =>
    intro hni
    rw [removeTags, if_neg hcond]
    rw [ih fun h => hni (List.mem_cons_of_mem _ h)]

/-- C9 counterexample: clean_text collapses whitespace before removing tags,
so removing the tag from "a <b> c" leaves the two spaces that surrounded it
adjacent: the output "a  c" contains a run of two consecutive whitespace
characters, contradicting the claim that the output never does. -/
theorem clean_text_double_whitespace_counterexample :
    clean_text "a <b> c" = "a  c" ∧ ¬ NoDoubleWS (clean_text "a <b> c").toList := by
  have h : clean_text "a <b> c" = "a  c" := by
    simp [clean_text, splitWords, joinSpace, removeTags, py_strip, py_isspace]
    decide
  refine ⟨h, ?_⟩
  rw [h]
  intro hch
  unfold NoDoubleWS at hch
  rw [show ("a  c".toList) = ['a', ' ', ' ', 'c'] from rfl] at hch
  rw [List.chain'_cons, List.chain'_cons] at hch
  exact hch.2.1 ⟨by decide, by decide⟩

/-- C9 amended: for every input string the output of clean_text contains no
substring matching <[^>]+>; and whenever the input contains no opening angle
bracket (so that tag removal deletes nothing), the output also contains no
run of two or more consecutive whitespace characters. The unconditional
no-whitespace-run half of the original claim fails because whitespace is
collapsed before tags are removed. -/
theorem clean_text_no_tags_and_single_spaces (s : String) :
    ¬ HasTag (clean_text s).toList ∧
      ('<' ∉ s.toList → NoDoubleWS (clean_text s).toList) := by
  by_cases hs : s = ""
  · subst hs
    constructor
    · rw [clean_text, if_pos rfl]
      intro h
      exact hasTag_nil_false h
    · intro _
      rw [clean_text, if_pos rfl]
      exact List.chain'_nil
  · constructor
    · rw [clean_text, if_neg hs, List.toList_asString]
      intro h
      exact removeTags_no_tag _ (hasTag_of_isInfix (py_strip_isInfix _) h)
    · intro hlt
      rw [clean_text, if_neg hs, List.toList_asString]
      have hw := splitWords_sound s.toList
      have hnolt : '<' ∉ joinSpace (splitWords s.toList) := by
        intro hin
        rcases mem_joinSpace _ _ hin with ⟨w, hw', hc⟩ | heq
        · exact hlt (splitWords_subset s.toList w hw' _ hc)
        · simp at heq
      rw [removeTags_eq_self _ hnolt]
      exact List.Chain'.infix (joinSpace_noDoubleWS _ hw) (py_strip_isInfix _)

/-- Witness for the amended C9 on an input with several whitespace runs and
no angle bracket: the cleaned text has no whitespace runs (and no tags). -/
theorem clean_text_no_tags_and_single_spaces_witness :
    ('<' ∉ (" a  b ").toList) ∧ NoDoubleWS (clean_text " a  b ").toList :=
  ⟨by decide, (clean_text_no_tags_and_single_spaces " a  b ").2 (by decide)⟩

/-- C3: select_top_stories returns exactly the first limit items of the
flatten order (source order, then category order, then article order), each
annotated with its source and category; it returns min(limit, total) items,
and the whole flatten whenever the total is at most limit. -/
theorem select_top_stories_spec {α : Type} (news : List (String × List (String × List α)))
    (limit : ℕ) :
    select_top_stories news limit = (flatten_news news).take limit ∧
      (select_top_stories news limit).length = min limit (flatten_news news).length ∧
      ((flatten_news news).length ≤ limit →
        select_top_stories news limit = flatten_news news) := by
  refine ⟨rfl, ?_, ?_⟩
  · rw [select_top_stories, List.length_take]
  · intro h
    rw [select_top_stories, List.take_of_length_le h]

/-- Witness for C3 on a two-source dataset of four articles with limit 5:
everything is returned, in flatten order. -/
theorem select_top_stories_spec_witness :
    (flatten_news [("s1", [("c1", ["a", "b"]), ("c2", ["c"])]),
        ("s2", [("c3", ["d"])])]).length ≤ 5 ∧
      select_top_stories [("s1", [("c1", ["a", "b"]), ("c2", ["c"])]),
          ("s2", [("c3", ["d"])])] 5 =
        flatten_news [("s1", [("c1", ["a", "b"]), ("c2", ["c"])]),
          ("s2", [("c3", ["d"])])] :=
  ⟨by decide, (select_top_stories_spec _ 5).2.2 (by decide)⟩

/-- C4: the generation calls never raise (they are total functions into
Option) and return null whenever the provider client is missing, the
provider call itself raises, or the response text fails to parse as JSON
after fence extraction — in particular on an empty response, a non-JSON
response, and a response whose fenced block is malformed, since json.loads
raises (the oracle returns none) on each of those. -/
theorem generate_returns_none_on_failures (call : Except Unit String)
    (parse : String → Option Json) (content : String) (p sp : String) :
    (generate_with_claude false call parse p sp = none ∧
        generate_with_gpt4 false call parse p sp = none) ∧
      (generate_with_claude true (Except.error ()) parse p sp = none ∧
        generate_with_gpt4 true (Except.error ()) parse p sp = none) ∧
      (parse (extract_json_content content) = none →
        generate_with_claude true (Except.ok content) parse p sp = none ∧
          generate_with_gpt4 true (Except.ok content) parse p sp = none) := by
  refine ⟨⟨rfl, rfl⟩, ⟨rfl, rfl⟩, ?_⟩
  intro h
  constructor
  · rw [generate_with_claude, if_pos rfl]
    exact h
  · rw [generate_with_gpt4, if_pos rfl]
    exact h

/-- Witness for C4: a parse oracle that rejects everything (as json.loads
does on the empty string, plain prose, and a malformed fenced body), applied
to an empty response and to a response with a malformed fence. -/
theorem generate_returns_none_on_failures_witness :
    ((fun _ : String => (none : Option Json)) (extract_json_content "") = none ∧
        (fun _ : String => (none : Option Json))
          (extract_json_content "```json \x7boops") = none) ∧
      (generate_with_claude true (Except.ok "") (fun _ => none) "p" "s" = none ∧
          generate_with_gpt4 true (Except.ok "") (fun _ => none) "p" "s" = none) ∧
        (generate_with_claude true (Except.ok "```json \x7boops")
            (fun _ => none) "p" "s" = none ∧
          generate_with_gpt4 true (Except.ok "```json \x7boops")
            (fun _ => none) "p" "s" = none) :=
  ⟨⟨rfl, rfl⟩,
    (generate_returns_none_on_failures (Except.ok "") (fun _ => none) "" "p" "s").2.2 rfl,
    (generate_returns_none_on_failures (Except.ok "```json \x7boops")
      (fun _ => none) "```json \x7boops" "p" "s").2.2 rfl⟩

/-- C6: with no valid credential, or no news dataset, run returns the empty
list, performs zero provider calls, and does not raise. -/
theorem run_fails_fast (env : RunEnv) (m : ℕ) :
    (has_valid_key env.keys = false → run env m = (Except.ok [], 0)) ∧
      (env.news = none → run env m = (Except.ok [], 0)) := by
  constructor
  · intro h
    rw [run, if_pos h]
  · intro h
    rw [run, h]
    by_cases hk : has_valid_key env.keys = false
    · rw [if_pos hk]
    · rw [if_neg hk]

/-- Witness for C6: a run with no credential configured, and a run with a
credential but no dataset; both return no files and make no provider call. -/
theorem run_fails_fast_witness :
    (has_valid_key (RunEnv.keys ⟨"claude", none, none, false, false,
          fun _ => Except.error (), fun _ => none, some [], "", ""⟩) = false ∧
        run ⟨"claude", none, none, false, false,
          fun _ => Except.error (), fun _ => none, some [], "", ""⟩ 5 =
          (Except.ok [], 0)) ∧
      ((⟨"claude", some "k", none, true, false, fun _ => Except.error (),
          fun _ => none, none, "", ""⟩ : RunEnv).news = none ∧
        run ⟨"claude", some "k", none, true, false, fun _ => Except.error (),
          fun _ => none, none, "", ""⟩ 5 = (Except.ok [], 0)) :=
  ⟨⟨rfl, (run_fails_fast _ 5).1 rfl⟩, ⟨rfl, (run_fails_fast _ 5).2 rfl⟩⟩

/-- Overwriting one key of a dict leaves every other key's binding intact
(map branch of dictSet). -/
lemma dictGet_mapSet_ne (k2 k : String) (v : Json) (h : ¬ k2 = k) :
    ∀ (fs : List (String × Json)),
      dictGet (fs.map (fun p => if p.1 = k2 then (k2, v) else p)) k = dictGet fs k := by
  intro fs
  induction fs with
  | nil => rfl
  | cons a fs ih =>
    rw [List.map_cons, dictGet, dictGet, List.find?_cons, List.find?_cons]
    by_cases ha : a.1 = k2
    · rw [if_pos ha]
      have h1 : (decide ((k2, v).1 = k)) = false := by
        simpa using h
      have h2 : (decide (a.1 = k)) = false := by
        simp [ha]
        exact h
      rw [h1, h2]
      exact ih
    · rw [if_neg ha]
      by_cases hk : a.1 = k
      · simp [hk]
      · simp only [decide_eq_false hk]
        exact ih

/-- Appending a fresh binding for another key does not change a lookup. -/
lemma dictGet_append_ne (k2 k : String) (v : Json) (h : ¬ k2 = k)
    (fs : List (String × Json)) :
    dictGet (fs ++ [(k2, v)]) k = dictGet fs k := by
  rw [dictGet, dictGet, List.find?_append]
  have h1 : List.find? (fun p => decide (p.1 = k)) [(k2, v)] = none := by
    simp
    exact h
  rw [h1, Option.or_none]

/-- Python d[k2] = v preserves d[k] for every other key k. -/
lemma dictGet_dictSet_ne (fs : List (String × Json)) (k2 k : String) (v : Json)
    (h : ¬ k2 = k) : dictGet (dictSet fs k2 v) k = dictGet fs k := by
  rw [dictSet]
  by_cases hany : fs.any (fun p => decide (p.1 = k2)) = true
  · rw [if_pos hany]
    exact dictGet_mapSet_ne k2 k v h fs
  · rw [if_neg hany]
    exact dictGet_append_ne k2 k v h fs

/-- dict assignment never empties a dict. -/
lemma dictSet_ne_nil (fs : List (String × Json)) (k : String) (v : Json) :
    dictSet fs k v ≠ [] := by
  rw [dictSet]
  by_cases hany : fs.any (fun p => decide (p.1 = k)) = true
  · rw [if_pos hany]
    intro hemp
    rw [List.map_eq_nil_iff] at hemp
    rw [hemp] at hany
    simp at hany
  · rw [if_neg hany]
    simp

/-- An object that has just received a dict assignment is truthy. -/
lemma truthy_obj_dictSet (fs : List (String × Json)) (k : String) (v : Json) :
    (Json.obj (dictSet fs k v)).truthy = true := by
  rw [Json.truthy]
  simp [dictSet_ne_nil fs k v]

/-- Provider-call outcomes of generate_article for a claude-configured run,
expressed through the parsed payload of the slot. -/
lemma generate_article_claude (env : RunEnv) (hm : env.active_model = "claude")
    (hc : env.claude_client = true) (i : ℕ)
    (items : List (String × String × NewsItem)) :
    generate_article env i items =
      match item_outcome env i with
      | none => Except.ok none
      | some j =>
        if j.truthy then
          match attach_metadata j env.now_iso env.active_model items with
          | Except.ok j2 => Except.ok (some j2)
          | Except.error e => Except.error e
        else Except.ok (some j) := by
  cases hp : env.provider i with
  | error e =>
    simp [generate_article, generate_with_claude, hm, hc, item_outcome, hp]
  | ok txt =>
    simp [generate_article, generate_with_claude, hm, hc, item_outcome, hp]

/-- run_loop step when the payload of the slot is absent (provider raised or
json.loads raised): one provider call, item skipped. -/
lemma run_loop_step_none (env : RunEnv) (hm : env.active_model = "claude")
    (hc : env.claude_client = true) (st : String × String × NewsItem)
    (rest : List (String × String × NewsItem)) (i : ℕ) (files : List String) (calls : ℕ)
    (ho : item_outcome env i = none) :
    run_loop env (st :: rest) i files calls = run_loop env rest (i + 1) files (calls + 1) := by
  simp only [run_loop, generate_article_claude env hm hc, ho,
    provider_calls_per_item, if_pos hm, if_pos hc]

/-- run_loop step when the payload parses but is falsy (e.g. the empty JSON
object): one provider call, the non-null article is skipped unpersisted. -/
lemma run_loop_step_falsy (env : RunEnv) (hm : env.active_model = "claude")
    (hc : env.claude_client = true) (st : String × String × NewsItem)
    (rest : List (String × String × NewsItem)) (i : ℕ) (files : List String) (calls : ℕ)
    (j : Json) (ho : item_outcome env i = some j) (ht : j.truthy = false) :
    run_loop env (st :: rest) i files calls = run_loop env rest (i + 1) files (calls + 1) := by
  simp only [run_loop, generate_article_claude env hm hc, ho,
    provider_calls_per_item, if_pos hm, if_pos hc, ht]
  simp
  intro habs
  rw [habs] at ht
  cases ht

/-- run_loop step when the payload is a truthy object with a string title:
one provider call, metadata and validation attached, one file persisted. -/
lemma run_loop_step_success (env : RunEnv) (hm : env.active_model = "claude")
    (hc : env.claude_client = true) (st : String × String × NewsItem)
    (rest : List (String × String × NewsItem)) (i : ℕ) (files : List String) (calls : ℕ)
    (fs : List (String × Json)) (t : String)
    (ho : item_outcome env i = some (Json.obj fs))
    (ht : (Json.obj fs).truthy = true)
    (hT : dictGet fs "title" = some (Json.str t)) :
    run_loop env (st :: rest) i files calls =
      run_loop env rest (i + 1)
        (files ++ ["generated_articles/" ++ sanitize_title t ++ "_" ++ env.now_file ++ ".json"])
        (calls + 1) := by
  have hT3 : dictGet (dictSet (dictSet (dictSet (dictSet fs
      "generated_at" (Json.str env.now_iso))
      "model_used" (Json.str env.active_model))
      "source_articles" (Json.arr ([st].map encode_item)))
      "validation" (validation_record env.now_iso)) "title" =
      some (Json.str t) := by
    rw [dictGet_dictSet_ne _ _ _ _ (by decide),
      dictGet_dictSet_ne _ _ _ _ (by decide),
      dictGet_dictSet_ne _ _ _ _ (by decide),
      dictGet_dictSet_ne _ _ _ _ (by decide)]
    exact hT
  simp only [run_loop, generate_article_claude env hm hc, ho,
    provider_calls_per_item, if_pos hm, if_pos hc, ht, if_true,
    attach_metadata, truthy_obj_dictSet, cross_validate_article,
    save_generated_article, hT3]

/-- Loop invariant for run_loop under a claude-configured environment whose
remaining slots are all benign: the loop never aborts, makes one provider
call per item, and appends exactly one file per successful slot. -/
lemma run_loop_benign (env : RunEnv) (hm : env.active_model = "claude")
    (hc : env.claude_client = true) :
    ∀ (ss : List (String × String × NewsItem)) (i : ℕ) (files : List String) (calls : ℕ),
      (∀ n, i ≤ n → n < i + ss.length → outcome_benign env n = true) →
      (run_loop env ss i files calls).2 = calls + ss.length ∧
        (run_loop env ss i files calls).1.map List.length =
          Except.ok (files.length + success_count env i ss.length) := by
  intro ss
  induction ss with
  | nil =>
    intro i files calls hb
    constructor
    · simp [run_loop]
    · simp [run_loop, success_count, Except.map]
  | cons st rest ih =>
    intro i files calls hb
    have hbi : outcome_benign env i = true :=
      hb i (le_refl i) (by rw [List.length_cons]; omega)
    have hbshift : ∀ n, i + 1 ≤ n → n < i + 1 + rest.length → outcome_benign env n = true :=
      fun n h1 h2 => hb n (by omega) (by rw [List.length_cons]; omega)
    have hcount : success_count env i (st :: rest).length =
        (if outcome_success env i = true then 1 else 0) +
          success_count env (i + 1) rest.length := by
      rw [List.length_cons, success_count, List.range'_succ, List.countP_cons, success_count]
      rcases hs : outcome_success env i with _ | _
      · simp [hs]
      · simp [hs]
        omega
    cases ho : item_outcome env i with
    | none =>
      have hs : outcome_success env i = false := by
        simp [outcome_success, ho]
      rw [run_loop_step_none env hm hc st rest i files calls ho]
      have hrec := ih (i + 1) files (calls + 1) hbshift
      rw [hcount, if_neg (by rw [hs]; exact Bool.false_ne_true)]
      constructor
      · rw [hrec.1, List.length_cons]
        omega
      · rw [hrec.2]
        simp
    | some j =>
      simp only [outcome_benign, ho] at hbi
      by_cases ht : j.truthy = true
      · have hsucc : outcome_success env i = true := by
          rw [Bool.or_eq_true] at hbi
          rcases hbi with hfalse | hs
          · rw [ht] at hfalse
            simp at hfalse
          · exact hs
        obtain ⟨fs, rfl, htitle⟩ : ∃ fs, j = Json.obj fs ∧ title_is_string fs = true := by
          cases j with
          | obj fs =>
            refine ⟨fs, rfl, ?_⟩
            simp only [outcome_success, ho, Bool.and_eq_true] at hsucc
            exact hsucc.2
          | null => simp [outcome_success, ho] at hsucc
          | bool b => simp [outcome_success, ho] at hsucc
          | num q => simp [outcome_success, ho] at hsucc
          | str s => simp [outcome_success, ho] at hsucc
          | arr xs => simp [outcome_success, ho] at hsucc
        obtain ⟨t, hT⟩ : ∃ t, dictGet fs "title" = some (Json.str t) := by
          rcases hg : dictGet fs "title" with _ | jt
          · simp [title_is_string, hg] at htitle
          · cases jt with
            | str s => exact ⟨s, rfl⟩
            | null => simp [title_is_string, hg] at htitle
            | bool b => simp [title_is_string, hg] at htitle
            | num q => simp [title_is_string, hg] at htitle
            | arr xs => simp [title_is_string, hg] at htitle
            | obj fs2 => simp [title_is_string, hg] at htitle
        rw [run_loop_step_success env hm hc st rest i files calls fs t ho ht hT]
        have hrec := ih (i + 1)
          (files ++ ["generated_articles/" ++ sanitize_title t ++ "_" ++ env.now_file ++ ".json"])
          (calls + 1) hbshift
        rw [hcount, if_pos hsucc]
        constructor
        · rw [hrec.1, List.length_cons]
          omega
        · rw [hrec.2]
          congr 1
          rw [List.length_append]
          simp only [List.length_cons, List.length_nil]
          omega
      · have ht' : j.truthy = false := by
          cases hjt : j.truthy with
          | false => rfl
          | true => exact absurd hjt ht
        have hs : outcome_success env i = false := by
          cases j with
          | obj fs => simp [outcome_success, ho, ht']
          | null => simp [outcome_success, ho]
          | bool b => simp [outcome_success, ho]
          | num q => simp [outcome_success, ho]
          | str s => simp [outcome_success, ho]
          | arr xs => simp [outcome_success, ho]
        rw [run_loop_step_falsy env hm hc st rest i files calls j ho ht']
        have hrec := ih (i + 1) files (calls + 1) hbshift
        rw [hcount, if_neg (by rw [hs]; exact Bool.false_ne_true)]
        constructor
        · rw [hrec.1, List.length_cons]
          omega
        · rw [hrec.2]
          simp

/-- C5 amended: for a claude-configured run over the dataset, with every
selected slot benign (its payload absent, falsy, or a persistable object),
the run makes exactly one provider call per selected item — min(maxArticles,
total) calls in all — never aborts, and persists exactly one file per
generation whose payload is truthy (a non-empty JSON object); in particular
the persisted count never exceeds the number of selected items. A non-null
but falsy generation (such as the empty JSON object) is skipped exactly like
a null one, which is where the original claim's count of non-null
generations fails. -/
theorem run_persists_truthy_generations (env : RunEnv) (k : String)
    (nd : List (String × List (String × List NewsItem))) (m : ℕ)
    (hm : env.active_model = "claude") (hc : env.claude_client = true)
    (hk : env.claude_key = some k) (hn : env.news = some nd)
    (hb : ∀ n, n < (select_top_stories nd m).length → outcome_benign env n = true) :
    (run env m).2 = min m (flatten_news nd).length ∧
      (run env m).1.map List.length =
        Except.ok (success_count env 0 (select_top_stories nd m).length) ∧
      success_count env 0 (select_top_stories nd m).length ≤
        min m (flatten_news nd).length := by
  have hsel : (select_top_stories nd m).length = min m (flatten_news nd).length := by
    rw [select_top_stories, List.length_take]
  have hvk : ¬ has_valid_key env.keys = false := by
    rw [has_valid_key, RunEnv.keys, get_active_key]
    dsimp only
    rw [hm, if_pos rfl, hk]
    simp
  rw [run, if_neg hvk, hn]
  have hl := run_loop_benign env hm hc (select_top_stories nd m) 0 [] 0
    (fun n h1 h2 => hb n (by omega))
  refine ⟨?_, ?_, ?_⟩
  · rw [hl.1, hsel]
    omega
  · rw [hl.2]
    simp
  · rw [← hsel, success_count]
    have h1 : (List.range' 0 (select_top_stories nd m).length).countP
        (fun j => outcome_success env j) ≤
        (List.range' 0 (select_top_stories nd m).length).length := by
      apply List.countP_le_length
    have h2 := List.length_range' 0 1 (select_top_stories nd m).length
    omega

/-- Witness for the amended C5: three items, maxArticles = 2, item 1's
provider call raises and item 2 parses to a valid article: the run makes
exactly 2 provider calls and persists exactly 1 article. -/
theorem run_persists_truthy_generations_witness :
    ((∀ n, n < (select_top_stories sample_dataset 2).length →
          outcome_benign sample_env n = true) ∧
        success_count sample_env 0 (select_top_stories sample_dataset 2).length = 1 ∧
        min 2 (flatten_news sample_dataset).length = 2) ∧
      ((run sample_env 2).2 = min 2 (flatten_news sample_dataset).length ∧
        (run sample_env 2).1.map List.length =
          Except.ok (success_count sample_env 0 (select_top_stories sample_dataset 2).length) ∧
        success_count sample_env 0 (select_top_stories sample_dataset 2).length ≤
          min 2 (flatten_news sample_dataset).length) :=
  ⟨⟨by decide, by decide, by decide⟩,
    run_persists_truthy_generations sample_env "k" sample_dataset 2 rfl rfl rfl rfl
      (by decide)⟩

/-- C5 counterexample: the sole generation returns a non-null value (the
empty JSON object) yet the run persists nothing: it returns no filenames
after its one provider call, because run tests Python truthiness, not
non-nullness. The claimed equality between persisted articles and non-null
generations therefore fails (0 persisted, 1 non-null). -/
theorem run_empty_object_counterexample :
    generate_article empty_object_env 0 [("yonhap", "all_news", sample_item "1")] =
        Except.ok (some (Json.obj [])) ∧
      run empty_object_env 1 = (Except.ok [], 1) := by
  constructor
  · rfl
  · rfl

/-- C10: when the provider response for the first selected item parses to a
truthy JSON value that is not a JSON object (such as the number 42), the
metadata attachment subscripts a non-dict and raises; generate_article
propagates the exception instead of returning null, and the whole run aborts
with that exception rather than skipping the item. -/
theorem truthy_non_object_aborts_run (env : RunEnv) (k : String)
    (nd : List (String × List (String × List NewsItem))) (m : ℕ)
    (st : String × String × NewsItem) (rest : List (String × String × NewsItem))
    (j : Json)
    (hm : env.active_model = "claude") (hc : env.claude_client = true)
    (hk : env.claude_key = some k) (hn : env.news = some nd)
    (hsel : select_top_stories nd m = st :: rest)
    (ho : item_outcome env 0 = some j) (ht : j.truthy = true)
    (hobj : ∀ fs, ¬ j = Json.obj fs) :
    attach_metadata j env.now_iso env.active_model [st] = Except.error () ∧
      generate_article env 0 [st] = Except.error () ∧
      (run env m).1 = Except.error () := by
  have hatt : attach_metadata j env.now_iso env.active_model [st] = Except.error () := by
    cases j with
    | obj fs => exact absurd rfl (hobj fs)
    | null => rfl
    | bool b => rfl
    | num q => rfl
    | str s => rfl
    | arr xs => rfl
  have hgen : generate_article env 0 [st] = Except.error () := by
    simp [generate_article_claude env hm hc, ho, ht, hatt]
  have hvk : ¬ has_valid_key env.keys = false := by
    rw [has_valid_key, RunEnv.keys, get_active_key]
    dsimp only
    rw [hm, if_pos rfl, hk]
    simp
  refine ⟨hatt, hgen, ?_⟩
  rw [run, if_neg hvk, hn]
  show (run_loop env (select_top_stories nd m) 0 [] 0).1 = Except.error ()
  rw [hsel]
  simp [run_loop, hgen]

/-- Witness for C10: the bare-number response parses to the truthy
non-object 42, attaching metadata raises, and the whole run aborts. -/
theorem truthy_non_object_aborts_run_witness :
    (item_outcome bare_number_env 0 = some (Json.num 42) ∧
        (Json.num 42).truthy = true) ∧
      (attach_metadata (Json.num 42) bare_number_env.now_iso bare_number_env.active_model
          [("yonhap", "all_news", sample_item "1")] = Except.error () ∧
        generate_article bare_number_env 0 [("yonhap", "all_news", sample_item "1")] =
          Except.error () ∧
        (run bare_number_env 1).1 = Except.error ()) :=
  ⟨⟨rfl, by decide⟩,
    truthy_non_object_aborts_run bare_number_env "k"
      [("yonhap", [("all_news", [sample_item "1"])])] 1
      ("yonhap", "all_news", sample_item "1") [] (Json.num 42)
      rfl rfl rfl rfl rfl rfl (by decide) (fun fs h => Json.noConfusion h)⟩
